import Mathlib

/-!
Shallow embedding of the OpenIM SDK message synchronizer
(`internal/interaction/msg_syncer.go`, package `interaction`) and of the
super-group model (`pkg/db/super_group_model.go`, package `db`).

Go `int64` values (seqs, session types) are modelled as `Int`; none of the
properties below depends on 64-bit wrap-around, and no arithmetic here can
reach the overflow boundary in the scenarios the claims quantify over.
The Go map `syncedMaxSeqs map[string]SyncedSeq` is modelled as an
association list with first-key-wins lookup; a missing key reads as the Go
zero value `SyncedSeq{0, 0}`, exactly as `m.syncedMaxSeqs[k]` does.
Side effects (deliveries into the conversation channel, invocations of the
range fetcher) are made explicit as an `Effects` log so that theorems can
speak about "sink calls" and "fetch calls".
-/

namespace OpenIM

/-- Constant `retryTimes = 2` from the source. -/
def retryTimes : Nat := 2

/-- Constant `defaultPullNums = 1` from the source. -/
def defaultPullNums : Int := 1

/-- `sdkws.MsgData`, restricted to the fields the synchronizer reads:
`GroupID`, `SessionType`, `Seq`. -/
structure MsgData where
  groupID : String
  sessionType : Int
  seq : Int
deriving DecidableEq

/-- `type Seq struct { maxSeq, minSeq int64; sessionType int32 }`. -/
structure Seq where
  maxSeq : Int
  minSeq : Int
  sessionType : Int
deriving DecidableEq

/-- `type SyncedSeq struct { maxSeqSynced int64; sessionType int32 }`. -/
structure SyncedSeq where
  maxSeqSynced : Int
  sessionType : Int
deriving DecidableEq

/-- The `syncedMaxSeqs map[string]SyncedSeq` field, as an association list. -/
abbrev SyncState := List (String × SyncedSeq)

/-- Go map read `m.syncedMaxSeqs[k]`: the stored value, or the zero value
`SyncedSeq{maxSeqSynced: 0, sessionType: 0}` when the key is absent. -/
def lookupSyncedSeq : SyncState → String → SyncedSeq
  | [], _ => ⟨0, 0⟩
  | (k1, v1) :: rest, k => if k1 = k then v1 else lookupSyncedSeq rest k

/-- Go map write `m.syncedMaxSeqs[k] = v`: replace the binding when the key
is present, append it otherwise. -/
def setSyncedSeq : SyncState → String → SyncedSeq → SyncState
  | [], k, v => [(k, v)]
  | (k1, v1) :: rest, k, v =>
    if k1 = k then (k1, v) :: rest else (k1, v1) :: setSyncedSeq rest k v

/-- Go comma-ok map read: `_, ok := m.syncedMaxSeqs[k]`. -/
def containsKey : SyncState → String → Bool
  | [], _ => false
  | (k1, _) :: rest, k => k1 = k || containsKey rest k

/-- One invocation of the fetch collaborator `syncMsgBySeqsInterval`,
recorded with the arguments it was called with. -/
structure FetchCall where
  sourceID : String
  sessionType : Int
  syncedMaxSeq : Int
  maxSeq : Int
deriving DecidableEq

/-- Observable side effects of a synchronizer operation: the fetch
invocations it performed and the batches it handed to the conversation
channel (one list entry per `triggerConversation` call). -/
structure Effects where
  fetchCalls : List FetchCall
  sinkBatches : List (List MsgData)
deriving DecidableEq

/-- Concatenation of two effect logs, in execution order. -/
def effApp (a b : Effects) : Effects :=
  ⟨a.fetchCalls ++ b.fetchCalls, a.sinkBatches ++ b.sinkBatches⟩

/-- Empty effect log. -/
def effNil : Effects := ⟨[], []⟩

/-- `triggerConversation`: sends the batch on the conversation channel via
`common.TriggerCmdNewMsgCome` and returns its error.  The channel send is
modelled as succeeding (`false` = nil error); every caller in the file
discards the returned error anyway (`_ =`). -/
def triggerConversation (msgs : List MsgData) : List (List MsgData) × Bool :=
  ([msgs], false)

/-- `syncMsgBySeqsInterval`: in the source this body is just
`return partMsgs, nil` — it ignores all four arguments and returns the
zero-value message slice with a nil error. -/
def syncMsgBySeqsInterval (_sourceID : String) (_sessionType : Int)
    (_syncedMaxSeq _syncedMinSeq : Int) : List MsgData × Bool :=
  ([], false)

/-- `syncAndTriggerMsgs`: call `syncMsgBySeqsInterval`; on error return it,
otherwise deliver the fetched messages with `triggerConversation` and
return nil.  The fetch invocation is recorded in the effect log. -/
def syncAndTriggerMsgs (sourceID : String) (sessionType : Int)
    (syncedMaxSeq maxSeq : Int) : Effects × Bool :=
  let call : FetchCall := ⟨sourceID, sessionType, syncedMaxSeq, maxSeq⟩
  let fr := syncMsgBySeqsInterval sourceID sessionType syncedMaxSeq maxSeq
  if fr.2 then (⟨[call], []⟩, true)
  else
    let tr := triggerConversation fr.1
    (⟨[call], tr.1⟩, false)

/-- `sync`: run `syncAndTriggerMsgs`; on error return it with the state
unchanged, otherwise overwrite the cursor for `sourceID` with
`SyncedSeq{maxSeqSynced: maxSeq, sessionType: sessionType}`. -/
def sync (st : SyncState) (sourceID : String) (sessionType : Int)
    (syncedMaxSeq maxSeq : Int) : SyncState × Effects × Bool :=
  let r := syncAndTriggerMsgs sourceID sessionType syncedMaxSeq maxSeq
  if r.2 then (st, r.1, true)
  else (setSyncedSeq st sourceID ⟨maxSeq, sessionType⟩, r.1, false)

theorem sync_eq (st : SyncState) (sourceID : String) (sessionType : Int)
    (syncedMaxSeq maxSeq : Int) :
    sync st sourceID sessionType syncedMaxSeq maxSeq =
      (setSyncedSeq st sourceID ⟨maxSeq, sessionType⟩,
       ⟨[⟨sourceID, sessionType, syncedMaxSeq, maxSeq⟩], [[]]⟩, false) := rfl

theorem lookup_setSyncedSeq (st : SyncState) (k : String) (v : SyncedSeq) :
    lookupSyncedSeq (setSyncedSeq st k v) k = v := by
  induction st with
  | nil => simp [setSyncedSeq, lookupSyncedSeq]
  | cons p rest ih =>
    obtain ⟨k1, v1⟩ := p
    by_cases h : k1 = k
    · simp [setSyncedSeq, lookupSyncedSeq, h]
    · simp [setSyncedSeq, lookupSyncedSeq, h, ih]

/-- The `cmd.Cmd` string: the constants from `pkg/constant` that the
synchronizer dispatches on, plus `other` for any remaining constant. -/
inductive CmdKind where
  | cmdInit
  | cmdReconnect
  | connSuccess
  | cmdMaxSeq
  | cmdPushMsg
  | other (s : String)
deriving DecidableEq

/-- The dynamic type of `cmd.Value` (`interface{}` in Go): the payload
shapes that reach the synchronizer.  `cmdMaxSeqToMsgSync` stands for
`*sdk_struct.CmdMaxSeqToMsgSync` (a seq-snapshot payload) and
`pushMessages` for `*sdkws.PushMessages` (a push envelope); their fields
are irrelevant here — only their dynamic type matters to the
type assertions in `handlePushMsgAndEvent`. -/
inductive CmdValue where
  | msgData (m : MsgData)
  | cmdMaxSeqToMsgSync
  | pushMessages
  | otherVal
deriving DecidableEq

/-- `common.Cmd2Value`, restricted to the fields read here. -/
structure Cmd2Value where
  cmd : CmdKind
  value : CmdValue
deriving DecidableEq

/-- Result of a completed (non-panicking) `handlePushMsgAndEvent` run:
the new cursor map, the effect log, and how many times `doConnected`
(defined elsewhere in the repository) was invoked. -/
structure HandleResult where
  state : SyncState
  effects : Effects
  connectedCalls : Nat
deriving DecidableEq

/-- The part of `handlePushMsgAndEvent` after the `switch cmd.Cmd` block:
`seq == 0` delivers the message and returns without touching the cursor;
`seq == m.syncedMaxSeqs[msg.GroupID].maxSeqSynced+1` delivers the message
and overwrites the cursor with `seq` (keeping the stored session type);
any other seq calls `m.sync(msg.GroupID, msg.SessionType, cursor, seq)`,
whose error is discarded. -/
def handleAfterSwitch (st : SyncState) (msg : MsgData) (connCalls : Nat) :
    HandleResult :=
  if msg.seq = 0 then ⟨st, ⟨[], [[msg]]⟩, connCalls⟩
  else if msg.seq = (lookupSyncedSeq st msg.groupID).maxSeqSynced + 1 then
    let oldSeq := lookupSyncedSeq st msg.groupID
    ⟨setSyncedSeq st msg.groupID ⟨msg.seq, oldSeq.sessionType⟩,
     ⟨[], [[msg]]⟩, connCalls⟩
  else
    let r := sync st msg.groupID msg.sessionType
      (lookupSyncedSeq st msg.groupID).maxSeqSynced msg.seq
    ⟨r.1, r.2.1, connCalls⟩

/-- `handlePushMsgAndEvent`.  The first statement is the unchecked type
assertion `msg := cmd.Value.(*sdkws.MsgData)`; a payload of any other
dynamic type panics there (`none`).  The `switch cmd.Cmd` then asserts the
same value to `*sdk_struct.CmdMaxSeqToMsgSync` (case `CmdMaxSeq`) or
`*sdkws.PushMessages` (case `CmdPushMsg`) — both necessarily panic,
because the value already had to be a `*sdkws.MsgData` to get past the
first assertion.  The `CmdConnSuccesss` case calls `doConnected` and falls
through to the message handling, as the Go `switch` has no early return. -/
def handlePushMsgAndEvent (st : SyncState) (cmd : Cmd2Value) :
    Option HandleResult :=
  match cmd.value with
  | .msgData msg =>
    match cmd.cmd with
    | .connSuccess => some (handleAfterSwitch st msg 1)
    | .cmdMaxSeq => none
    | .cmdPushMsg => none
    | _ => some (handleAfterSwitch st msg 0)
  | _ => none

/-- Loop body shared by `triggerReconnect` and `triggerReconnectFinished`:
for every entry of the cursor map with `maxSeqSynced != 0`, call
`m.sync(groupID, sessionType, 0, maxSeqSynced)` (error only logged).
The iteration runs over a snapshot of the entries while `sync` updates the
threaded state, exactly as the Go `range` loop does. -/
def reconnectLoop : List (String × SyncedSeq) → SyncState → SyncState × Effects
  | [], st => (st, effNil)
  | (groupID, ss) :: rest, st =>
    if ss.maxSeqSynced = 0 then reconnectLoop rest st
    else
      let r := sync st groupID ss.sessionType 0 ss.maxSeqSynced
      let rec1 := reconnectLoop rest r.1
      (rec1.1, effApp r.2.1 rec1.2)

/-- `triggerReconnect`. -/
def triggerReconnect (st : SyncState) : SyncState × Effects :=
  reconnectLoop st st

/-- `triggerReconnectFinished` — its body is identical to
`triggerReconnect`. -/
def triggerReconnectFinished (st : SyncState) : SyncState × Effects :=
  reconnectLoop st st

/-- Loop body of `triggerSync`: for every entry with `maxSeqSynced != 0`,
call `m.sync(groupID, sessionType, maxSeqSynced, maxSeqSynced + defaultPullNums)`. -/
def syncProbeLoop : List (String × SyncedSeq) → SyncState → SyncState × Effects
  | [], st => (st, effNil)
  | (groupID, ss) :: rest, st =>
    if ss.maxSeqSynced = 0 then syncProbeLoop rest st
    else
      let r := sync st groupID ss.sessionType ss.maxSeqSynced
        (ss.maxSeqSynced + defaultPullNums)
      let rec1 := syncProbeLoop rest r.1
      (rec1.1, effApp r.2.1 rec1.2)

/-- `triggerSync`. -/
def triggerSync (st : SyncState) : SyncState × Effects :=
  syncProbeLoop st st

/-- The `for sourceID, newSeq := range newSeqMap` loop of
`compareSeqsAndTrigger`: a known conversation is synced only when
`newSeq.maxSeq > syncedSeq.maxSeqSynced`, from its current cursor; an
unknown conversation is synced from 0. -/
def seqLoop : List (String × Seq) → SyncState → SyncState × Effects
  | [], st => (st, effNil)
  | (sourceID, newSeq) :: rest, st =>
    if containsKey st sourceID then
      if newSeq.maxSeq > (lookupSyncedSeq st sourceID).maxSeqSynced then
        let r := sync st sourceID newSeq.sessionType
          (lookupSyncedSeq st sourceID).maxSeqSynced newSeq.maxSeq
        let rec1 := seqLoop rest r.1
        (rec1.1, effApp r.2.1 rec1.2)
      else seqLoop rest st
    else
      let r := sync st sourceID newSeq.sessionType 0 newSeq.maxSeq
      let rec1 := seqLoop rest r.1
      (rec1.1, effApp r.2.1 rec1.2)

/-- `compareSeqsAndTrigger`: on `CmdInit` run `triggerSync` before the
snapshot loop (the deferred `triggerSyncFinished` only logs); on
`CmdReconnect` run `triggerReconnect` before the loop and the deferred
`triggerReconnectFinished` after it; otherwise just the loop.  The Go
function also asserts `cmd.Value.(map[string]Seq)` — the snapshot map is
taken here directly as a parameter — and increments `m.syncTimes`, which
no claim observes. -/
def compareSeqsAndTrigger (cmd : CmdKind) (newSeqMap : List (String × Seq))
    (st : SyncState) : SyncState × Effects :=
  match cmd with
  | .cmdInit =>
    let t := triggerSync st
    let l := seqLoop newSeqMap t.1
    (l.1, effApp t.2 l.2)
  | .cmdReconnect =>
    let t := triggerReconnect st
    let l := seqLoop newSeqMap t.1
    let f := triggerReconnectFinished l.1
    (f.1, effApp (effApp t.2 l.2) f.2)
  | _ => seqLoop newSeqMap st

/-- `getSeqsNeedSync`: the Go loop
`for i := syncedMaxSeq + 1; i <= maxSeq; i++ { seqs = append(seqs, i) }`,
i.e. the ascending enumeration of `syncedMaxSeq+1 .. maxSeq`
(`(maxSeq - syncedMaxSeq).toNat` elements; empty when the difference is
not positive). -/
def getSeqsNeedSync (syncedMaxSeq maxSeq : Int) : List Int :=
  (List.range (maxSeq - syncedMaxSeq).toNat).map
    (fun i : Nat => syncedMaxSeq + 1 + (i : Int))

/-- The `for i := 0; i < len(seqsNeedSync); i += split` chunking loop of
`splitSeqs`: successive slices of `split` elements, the last one possibly
shorter.  The `fuel` parameter is a structural-termination device only: it
bounds the number of loop iterations and `chunkSeqs` below supplies
`xs.length`, which always suffices, so the fuel-exhausted branch is
unreachable from `chunkSeqs`.  For `split >= 1` this is exactly the Go
loop; the Go loop does not terminate for `split <= 0`, which cannot occur
since it is only called with the positive constant
`constant.SplitPullMsgNum`. -/
def chunkAux (split : Nat) : Nat → List Int → List (List Int)
  | _, [] => []
  | 0, xs => [xs]
  | fuel + 1, x :: xs =>
    (x :: xs.take (split - 1)) :: chunkAux split fuel (xs.drop (split - 1))

/-- The chunking loop of `splitSeqs`, at its actual iteration bound. -/
def chunkSeqs (split : Nat) (xs : List Int) : List (List Int) :=
  chunkAux split xs.length xs

/-- `splitSeqs`: a list of at most `split` elements is returned as a single
shard (note: this includes the empty list, returned as one empty shard);
a longer list is cut into slices of `split` with a shorter final slice. -/
def splitSeqs (split : Nat) (seqsNeedSync : List Int) : List (List Int) :=
  if seqsNeedSync.length ≤ split then [seqsNeedSync]
  else chunkSeqs split seqsNeedSync

/-- Outcome of one `SendReqWaitResp` + `proto.Unmarshal` round in the
`syncMsgBySeqs` loop: the transport call errors, or it succeeds and the
response fails to decode, or it succeeds and decodes to a message list. -/
inductive PullResult where
  | transportErr
  | decodeErr
  | okMsgs (msgs : List MsgData)
deriving DecidableEq

/-- The `for i := 0; i < len(seqsList); { ... }` loop of `syncMsgBySeqs`,
driven by an oracle giving the outcome of each successive
`SendReqWaitResp` call (the request never encodes the shard's seqs — only
`UserID` is set — so outcomes are per call, not per shard content).
A transport error hits `continue` before `i++`: the same shard index is
retried on the next call.  A decode error hits `continue` after `i++`: the
shard is skipped for good and its messages dropped.  `none` models the
loop still running when the finite oracle is exhausted — the Go loop keeps
calling out as long as errors keep coming and never exits with an error. -/
def syncBySeqsLoop (numShards : Nat) : Nat → List MsgData → List PullResult →
    Option (List MsgData)
  | i, acc, [] => if i < numShards then none else some acc
  | i, acc, r :: rest =>
    if i < numShards then
      match r with
      | .transportErr => syncBySeqsLoop numShards i acc rest
      | .decodeErr => syncBySeqsLoop numShards (i + 1) acc rest
      | .okMsgs msgs => syncBySeqsLoop numShards (i + 1) (acc ++ msgs) rest
    else some acc

/-- `syncMsgBySeqs`: split the pending seqs with
`splitSeqs(constant.SplitPullMsgNum, seqsNeedSync)` (the constant is the
`split` parameter here), run the pull loop, and `return allMsgs, nil` —
the returned error is always nil (`false`). -/
def syncMsgBySeqs (split : Nat) (seqsNeedSync : List Int)
    (oracle : List PullResult) : Option (List MsgData × Bool) :=
  let seqsList := splitSeqs split seqsNeedSync
  (syncBySeqsLoop seqsList.length 0 [] oracle).map (fun msgs => (msgs, false))

/-- `model_struct.LocalGroup`, restricted to the one field
`GetJoinedSuperGroupIDList` reads. -/
structure LocalGroup where
  groupID : String
deriving DecidableEq

/-- `GetJoinedSuperGroupList` (package `db`): the result of
`d.conn.Table(SuperGroupTableName).Find(&groupList)` is taken as a
parameter `find` — the rows read plus the query error (`none` = nil).
The function copies the rows into a pointer slice and returns it together
with the wrapped error; Go returns both even when the error is non-nil,
and `utils.Wrap` preserves error-ness. -/
def GetJoinedSuperGroupList (find : List LocalGroup × Option String) :
    List LocalGroup × Option String :=
  (find.1, find.2)

/-- `GetJoinedSuperGroupIDList` (package `db`): on a query error, return
`nil, err`; on success the source builds `groupIDList` from the rows and
then executes `return nil, nil`, discarding the built list. -/
def GetJoinedSuperGroupIDList (find : List LocalGroup × Option String) :
    List String × Option String :=
  let r := GetJoinedSuperGroupList find
  match r.2 with
  | some e => ([], some e)
  | none =>
    let _groupIDList := r.1.map (fun v => v.groupID)
    ([], none)

theorem getSeqsNeedSync_mem (low high x : Int) :
    x ∈ getSeqsNeedSync low high ↔ low + 1 ≤ x ∧ x ≤ high := by
  simp only [getSeqsNeedSync, List.mem_map, List.mem_range]
  constructor
  · rintro ⟨i, hi, rfl⟩
    omega
  · rintro ⟨h1, h2⟩
    refine ⟨(x - low - 1).toNat, by omega, by omega⟩

theorem getSeqsNeedSync_pairwise (low high : Int) :
    (getSeqsNeedSync low high).Pairwise (· < ·) := by
  unfold getSeqsNeedSync
  refine List.Pairwise.map _ (fun a b hab => ?_) (List.pairwise_lt_range _)
  omega

theorem getSeqsNeedSync_empty (low high : Int) (h : low ≥ high) :
    getSeqsNeedSync low high = [] := by
  simp only [getSeqsNeedSync]
  have h0 : (high - low).toNat = 0 := by omega
  simp [h0]

theorem chunkAux_nil (split fuel : Nat) : chunkAux split fuel [] = [] := by
  match fuel with
  | 0 => rfl
  | n + 1 => rfl

theorem chunkAux_ne_nil (split fuel : Nat) (x : Int) (xs : List Int) :
    chunkAux split fuel (x :: xs) ≠ [] := by
  match fuel with
  | 0 => simp [chunkAux]
  | n + 1 => simp [chunkAux]

theorem chunkAux_flatten (split : Nat) :
    ∀ (fuel : Nat) (xs : List Int), xs.length ≤ fuel →
      (chunkAux split fuel xs).flatten = xs := by
  intro fuel
  induction fuel with
  | zero =>
    intro xs h
    match xs with
    | [] => simp [chunkAux]
    | x :: xs => simp at h
  | succ n ih =>
    intro xs h
    match xs with
    | [] => simp [chunkAux]
    | x :: xs =>
      simp only [chunkAux, List.flatten_cons]
      rw [ih]
      · simp
      · simp at h
        simp [List.length_drop]
        omega

theorem chunkAux_mem_length (split : Nat) (hs : 1 ≤ split) :
    ∀ (fuel : Nat) (xs : List Int), xs.length ≤ fuel →
      ∀ c ∈ chunkAux split fuel xs, c.length ≤ split := by
  intro fuel
  induction fuel with
  | zero =>
    intro xs h c hc
    match xs with
    | [] => simp [chunkAux] at hc
    | x :: xs => simp at h
  | succ n ih =>
    intro xs h c hc
    match xs with
    | [] => simp [chunkAux] at hc
    | x :: xs =>
      simp only [chunkAux, List.mem_cons] at hc
      rcases hc with hc | hc
      · subst hc
        simp [List.length_take]
        omega
      · exact ih (xs.drop (split - 1))
          (by simp [List.length_drop]; simp at h; omega) c hc

theorem chunkAux_dropLast_length (split : Nat) (hs : 1 ≤ split) :
    ∀ (fuel : Nat) (xs : List Int), xs.length ≤ fuel →
      ∀ c ∈ (chunkAux split fuel xs).dropLast, c.length = split := by
  intro fuel
  induction fuel with
  | zero =>
    intro xs h c hc
    match xs with
    | [] => simp [chunkAux] at hc
    | x :: xs => simp at h
  | succ n ih =>
    intro xs h c hc
    match xs with
    | [] => simp [chunkAux] at hc
    | x :: xs =>
      simp only [chunkAux] at hc
      match hrest : xs.drop (split - 1) with
      | [] =>
        rw [hrest, chunkAux_nil] at hc
        simp at hc
      | y :: ys =>
        rw [hrest] at hc
        have hne := chunkAux_ne_nil split n y ys
        match hcs : chunkAux split n (y :: ys) with
        | [] => exact absurd hcs hne
        | c1 :: cs =>
          rw [hcs, List.dropLast_cons₂] at hc
          rcases List.mem_cons.mp hc with hc | hc
          · subst hc
            have hlen : split - 1 ≤ xs.length := by
              have hl := congrArg List.length hrest
              simp [List.length_drop] at hl
              omega
            simp [List.length_take]
            omega
          · have hih := ih (xs.drop (split - 1))
              (by simp [List.length_drop]; simp at h; omega) c
            rw [hrest, hcs] at hih
            exact hih hc

theorem splitSeqs_flatten (split : Nat) (xs : List Int) :
    (splitSeqs split xs).flatten = xs := by
  unfold splitSeqs
  by_cases h : xs.length ≤ split
  · simp [h]
  · simp only [h, if_false]
    exact chunkAux_flatten split xs.length xs le_rfl

theorem splitSeqs_mem_length (split : Nat) (hs : 1 ≤ split) (xs : List Int)
    (c : List Int) (hc : c ∈ splitSeqs split xs) : c.length ≤ split := by
  unfold splitSeqs at hc
  by_cases h : xs.length ≤ split
  · simp [h] at hc
    subst hc
    exact h
  · simp only [h, if_false] at hc
    exact chunkAux_mem_length split hs xs.length xs le_rfl c hc

theorem splitSeqs_dropLast_length (split : Nat) (hs : 1 ≤ split)
    (xs : List Int) (c : List Int) (hc : c ∈ (splitSeqs split xs).dropLast) :
    c.length = split := by
  unfold splitSeqs at hc
  by_cases h : xs.length ≤ split
  · simp [h] at hc
  · simp only [h, if_false] at hc
    exact chunkAux_dropLast_length split hs xs.length xs le_rfl c hc

theorem reconnectLoop_fetchCalls (entries : List (String × SyncedSeq)) :
    ∀ st : SyncState, (reconnectLoop entries st).2.fetchCalls =
      (entries.filter (fun p => p.2.maxSeqSynced ≠ 0)).map
        (fun p => ⟨p.1, p.2.sessionType, 0, p.2.maxSeqSynced⟩) := by
  induction entries with
  | nil => intro st; simp [reconnectLoop, effNil]
  | cons p rest ih =>
    intro st
    obtain ⟨groupID, ss⟩ := p
    by_cases h : ss.maxSeqSynced = 0
    · simp [reconnectLoop, h, ih]
    · simp [reconnectLoop, h, sync_eq, effApp, ih]

/-- Conversation key used in concrete scenarios. -/
def gKey : String := "g"

/-- Conversation key used in concrete scenarios. -/
def cKey : String := "c"

/-- Conversation key used in concrete scenarios. -/
def aKey : String := "A"

/-- Conversation key used in concrete scenarios. -/
def bKey : String := "B"

/-- A command constant that is none of `CmdConnSuccesss`, `CmdMaxSeq`,
`CmdPushMsg`, so that `handlePushMsgAndEvent` reaches its message-handling
tail for it. -/
def pushCmd : String := "pushNewMsg"

/-- Sample message carried by a successfully decoded first shard. -/
def msgA : MsgData := ⟨aKey, 1, 1⟩

/-- Sample message carried by a successfully decoded third shard. -/
def msgC : MsgData := ⟨aKey, 1, 3⟩

/-- Claim C1: the cursor `syncedMaxSeqs[key].maxSeqSynced` is claimed
never to decrease, and a push with `seq <= cursor` is claimed to leave it
unchanged.  The code violates this: at cursor 50, a pushed ordered message
with seq 10 takes the `else` branch of `handlePushMsgAndEvent`, whose
`sync` call succeeds (the fetch stub never fails) and overwrites the
cursor with 10 — a strict decrease. -/
theorem claim1_cursor_regression_on_stale_push :
    (lookupSyncedSeq [(gKey, ⟨50, 3⟩)] gKey).maxSeqSynced = 50 ∧
    handlePushMsgAndEvent [(gKey, ⟨50, 3⟩)]
        ⟨.other pushCmd, .msgData ⟨gKey, 3, 10⟩⟩ =
      some ⟨[(gKey, ⟨10, 3⟩)], ⟨[⟨gKey, 3, 50, 10⟩], [[]]⟩, 0⟩ := by
  decide

/-- Claim C2 counterexample: in `syncMsgBySeqs` with three shards
(`split = 1`, seqs `[1,2,3]`), a decode failure on the second shard does
not abort the fetch with an error — the shard is skipped and the messages
of the other shards are returned with a nil error (a partial result); and
a shard whose transport call fails on every attempt never makes the
function return an error — the loop just keeps retrying (`none`: still
running after any finite number of attempts). -/
theorem claim2_counterexample :
    (splitSeqs 1 [1, 2, 3]).length = 3 ∧
    syncMsgBySeqs 1 [1, 2, 3] [.okMsgs [msgA], .decodeErr, .okMsgs [msgC]] =
      some ([msgA, msgC], false) ∧
    syncMsgBySeqs 1 [1, 2, 3] [.transportErr, .transportErr, .transportErr] =
      none := by
  decide

/-- Claim C2 as amended: in the `syncMsgBySeqs` loop a transport failure
leaves the shard index unchanged (the same shard is retried indefinitely
at this layer — the budget `retryTimes = 2` is merely passed down to the
transport collaborator), a decode failure advances the shard index
(permanently skipping that shard's messages), and whenever the function
returns it returns a nil error, so a partial message list can be emitted
and no shard failure is ever reported to the caller. -/
theorem claim2_amended (numShards i : Nat) (acc : List MsgData)
    (rest oracle : List PullResult) (split : Nat) (seqs : List Int)
    (res : List MsgData × Bool) (hin : i < numShards)
    (hres : syncMsgBySeqs split seqs oracle = some res) :
    syncBySeqsLoop numShards i acc (.transportErr :: rest) =
      syncBySeqsLoop numShards i acc rest ∧
    syncBySeqsLoop numShards i acc (.decodeErr :: rest) =
      syncBySeqsLoop numShards (i + 1) acc rest ∧
    res.2 = false := by
  refine ⟨by simp [syncBySeqsLoop, hin], by simp [syncBySeqsLoop, hin], ?_⟩
  obtain ⟨ms, b⟩ := res
  simp only [syncMsgBySeqs] at hres
  cases hl : syncBySeqsLoop (splitSeqs split seqs).length 0 [] oracle with
  | none => rw [hl] at hres; exact absurd hres (by simp)
  | some msgs =>
    rw [hl] at hres
    simp at hres
    exact hres.2

/-- Claim C2 witness: the amended statement instantiated at one shard and
an immediately successful oracle. -/
theorem claim2_amended_witness :
    syncBySeqsLoop 1 0 [] [.transportErr] = syncBySeqsLoop 1 0 [] [] ∧
    syncBySeqsLoop 1 0 [] [.decodeErr] = syncBySeqsLoop 1 1 [] [] ∧
    (([] : List MsgData), false).2 = false :=
  claim2_amended 1 0 [] [] [.okMsgs []] 1 [] ([], false) (by decide) rfl

/-- Claim C3: with cursor 4 and a remote snapshot of 10, the catch-up
engine is claimed to fetch and deliver exactly seqs 5..10.  The code
computes the right gap — `sync` is invoked with bounds (4, 10], and
`getSeqsNeedSync 4 10 = [5,...,10]` — but `syncMsgBySeqsInterval` is an
empty stub, so the sink receives one empty batch instead of those
messages, while the cursor is still advanced to 10. -/
theorem claim3_stub_fetch_empty_delivery :
    compareSeqsAndTrigger .cmdMaxSeq [(cKey, ⟨10, 1, 3⟩)] [(cKey, ⟨4, 3⟩)] =
      ([(cKey, ⟨10, 3⟩)], ⟨[⟨cKey, 3, 4, 10⟩], [[]]⟩) ∧
    getSeqsNeedSync 4 10 = [5, 6, 7, 8, 9, 10] := by
  decide

/-- Claim C4: every `sync` call returns a nil error (the stub fetch never
fails, making the error branch — which would return early with the state
untouched — unreachable), and the cursor for `sourceID` is overwritten
with exactly the requested `maxSeq` and session type, independent of the
(empty) message list the fetch returned. -/
theorem claim4_sync_cursor_exact (st : SyncState) (sourceID : String)
    (sessionType syncedMaxSeq maxSeq : Int) :
    (sync st sourceID sessionType syncedMaxSeq maxSeq).2.2 = false ∧
    lookupSyncedSeq (sync st sourceID sessionType syncedMaxSeq maxSeq).1
        sourceID = ⟨maxSeq, sessionType⟩ ∧
    (sync st sourceID sessionType syncedMaxSeq maxSeq).1 =
      setSyncedSeq st sourceID ⟨maxSeq, sessionType⟩ := by
  refine ⟨?_, ?_, ?_⟩ <;> simp [sync_eq, lookup_setSyncedSeq]

/-- Claim C5: a pushed ordered message whose seq is exactly the current
cursor plus one takes the fast path: the handler delivers exactly that one
message in one sink call, overwrites the cursor with that seq (keeping the
stored session type), and performs no fetch call. -/
theorem claim5_fast_path (st : SyncState) (msg : MsgData) (c : String)
    (h0 : msg.seq ≠ 0)
    (h1 : msg.seq = (lookupSyncedSeq st msg.groupID).maxSeqSynced + 1) :
    handlePushMsgAndEvent st ⟨.other c, .msgData msg⟩ =
      some ⟨setSyncedSeq st msg.groupID
              ⟨msg.seq, (lookupSyncedSeq st msg.groupID).sessionType⟩,
            ⟨[], [[msg]]⟩, 0⟩ := by
  have hdisp : handlePushMsgAndEvent st ⟨.other c, .msgData msg⟩ =
      some (handleAfterSwitch st msg 0) := rfl
  rw [hdisp]
  unfold handleAfterSwitch
  rw [if_neg h0, if_pos h1]

/-- Claim C5 witness: a conversation at cursor 50 receiving seq 51 ends at
cursor 51 with one sink call containing only that message and no fetch. -/
theorem claim5_fast_path_witness :
    handlePushMsgAndEvent [(gKey, ⟨50, 5⟩)]
        ⟨.other pushCmd, .msgData ⟨gKey, 5, 51⟩⟩ =
      some ⟨[(gKey, ⟨51, 5⟩)], ⟨[], [[⟨gKey, 5, 51⟩]]⟩, 0⟩ :=
  claim5_fast_path [(gKey, ⟨50, 5⟩)] ⟨gKey, 5, 51⟩ pushCmd
    (by decide) (by decide)

/-- Claim C6: under a Reconnect directive, `triggerReconnect` issues one
fetch call with bounds (0, maxSeqSynced] — i.e. the range
`[1, maxSeqSynced]` — for exactly the conversations whose cursor is
non-zero, in map order, and no call for a zero cursor; with cursors
`A = 10` and `B = 0`, A gets the single fetch of `[1..10]` and B none. -/
theorem claim6_reconnect_fetches (st : SyncState) :
    (triggerReconnect st).2.fetchCalls =
      (st.filter (fun p => p.2.maxSeqSynced ≠ 0)).map
        (fun p => ⟨p.1, p.2.sessionType, 0, p.2.maxSeqSynced⟩) ∧
    (triggerReconnect [(aKey, ⟨10, 1⟩), (bKey, ⟨0, 1⟩)]).2.fetchCalls =
      [⟨aKey, 1, 0, 10⟩] ∧
    getSeqsNeedSync 0 10 = [1, 2, 3, 4, 5, 6, 7, 8, 9, 10] :=
  ⟨reconnectLoop_fetchCalls st st, by decide, by decide⟩

/-- Claim C7: `getSeqsNeedSync low high` is exactly the ascending
enumeration of `low+1 .. high` (strictly sorted, with the stated
membership, empty when `low >= high`), and `splitSeqs` is an
order-preserving partition — its shards concatenate back to the input,
every non-final shard has exactly the configured size, every shard has at
most that size — with shard sizes `[3,3,1]` for size 3 and 7 pending
seqs. -/
theorem claim7_enumeration_and_split (low high : Int) (split : Nat)
    (xs : List Int) (hs : 1 ≤ split) :
    (∀ x : Int, x ∈ getSeqsNeedSync low high ↔ low + 1 ≤ x ∧ x ≤ high) ∧
    (getSeqsNeedSync low high).Pairwise (· < ·) ∧
    (low ≥ high → getSeqsNeedSync low high = []) ∧
    (splitSeqs split xs).flatten = xs ∧
    (∀ c ∈ (splitSeqs split xs).dropLast, c.length = split) ∧
    (∀ c ∈ splitSeqs split xs, c.length ≤ split) ∧
    (splitSeqs 3 (getSeqsNeedSync 0 7)).map List.length = [3, 3, 1] :=
  ⟨fun x => getSeqsNeedSync_mem low high x,
   getSeqsNeedSync_pairwise low high,
   fun h => getSeqsNeedSync_empty low high h,
   splitSeqs_flatten split xs,
   fun c hc => splitSeqs_dropLast_length split hs xs c hc,
   fun c hc => splitSeqs_mem_length split hs xs c hc,
   by decide⟩

/-- Claim C7 witness: the statement instantiated at shard size 3 and the
7 pending seqs `1..7`. -/
theorem claim7_enumeration_and_split_witness :
    (splitSeqs 3 (getSeqsNeedSync 0 7)).map List.length = [3, 3, 1] :=
  (claim7_enumeration_and_split 0 7 3 [1, 2, 3, 4, 5, 6, 7]
    (by decide)).2.2.2.2.2.2

/-- Claim C8: `syncMsgBySeqsInterval` returns the empty list and a nil
error for every input, so every `sync` invocation succeeds, performs
exactly one sink delivery of an empty batch, and unconditionally
overwrites the cursor with the requested `maxSeq`. -/
theorem claim8_interval_stub (sourceID : String)
    (sessionType low high : Int) (st : SyncState) :
    syncMsgBySeqsInterval sourceID sessionType low high = ([], false) ∧
    sync st sourceID sessionType low high =
      (setSyncedSeq st sourceID ⟨high, sessionType⟩,
       ⟨[⟨sourceID, sessionType, low, high⟩], [[]]⟩, false) :=
  ⟨rfl, sync_eq st sourceID sessionType low high⟩

/-- Claim C9: `handlePushMsgAndEvent` type-asserts every command payload
to `*sdkws.MsgData` before dispatching, so any seq-snapshot
(`CmdMaxSeqToMsgSync`) or push-envelope (`PushMessages`) payload panics
there regardless of the command kind; and even a `MsgData` payload panics
under the `CmdMaxSeq` or `CmdPushMsg` kinds, whose cases re-assert the
same value to a different type.  The dispatcher is therefore not total
over the command kinds. -/
theorem claim9_payload_assertion :
    (∀ (st : SyncState) (k : CmdKind),
        handlePushMsgAndEvent st ⟨k, .cmdMaxSeqToMsgSync⟩ = none) ∧
    (∀ (st : SyncState) (k : CmdKind),
        handlePushMsgAndEvent st ⟨k, .pushMessages⟩ = none) ∧
    (∀ (st : SyncState) (m : MsgData),
        handlePushMsgAndEvent st ⟨.cmdMaxSeq, .msgData m⟩ = none) ∧
    (∀ (st : SyncState) (m : MsgData),
        handlePushMsgAndEvent st ⟨.cmdPushMsg, .msgData m⟩ = none) :=
  ⟨fun _ _ => rfl, fun _ _ => rfl, fun _ _ => rfl, fun _ _ => rfl⟩

/-- Claim C10: whenever the underlying group query succeeds,
`GetJoinedSuperGroupIDList` returns `(nil, nil)` for every database
state — the ID list it builds from the rows is discarded — and its first
component is nil even on a failed query, so no caller ever observes a
non-empty ID list. -/
theorem claim10_super_group_id_list_nil :
    (∀ rows : List LocalGroup,
        GetJoinedSuperGroupIDList (rows, none) = ([], none)) ∧
    (∀ (rows : List LocalGroup) (e : Option String),
        (GetJoinedSuperGroupIDList (rows, e)).1 = []) :=
  ⟨fun _ => rfl, fun rows e => by cases e <;> rfl⟩

end OpenIM
